import Mathlib

/-!
Shallow embedding of the Sublime Text plugin `python-coverage.py`: the
coverage-dataset registry and the missing-line computation, together with
the module-level cache, the file watcher, the toggle command and the view
event listener.  Python dicts (which preserve insertion order) are modelled
as association lists, Python sets of line numbers as duplicate-free lists,
and the mutable module state `CACHE` / `FILE_OBSERVER` as explicit record
values threaded through the operations.
-/

namespace PyCov

/-- Python `needle == hay[:len(needle)]`: the needle is a leading run of the hay. -/
def listHasPre (l p : List Char) : Bool := p == l.take p.length

/-- Python `needle in hay` on strings: the needle occurs contiguously in the hay. -/
def listHasSub (p : List Char) : List Char → Bool
  | [] => p == []
  | c :: t => listHasPre (c :: t) p || listHasSub p t

/-- `fold in folder` from line 217 of the source: raw substring containment. -/
def strIn (needle hay : String) : Bool := listHasSub needle.data hay.data

/-- Python `s.endswith(suffix)`. -/
def listHasSuf (l suffix : List Char) : Bool := suffix == l.drop (l.length - suffix.length)

/-- `event.src_path.endswith(".coverage")` from line 73 of the source. -/
def strEndsWith (s suffix : String) : Bool := listHasSuf s.data suffix.data

/-- Final path component of a `/`-separated path (what `Path.glob("**/.coverage")`
matches against the literal name `.coverage`). -/
def compLast : List Char → List Char → List Char
  | acc, [] => acc
  | acc, c :: t => if c == '/' then compLast [] t else compLast (acc ++ [c]) t

/-- Final path component of a path string. -/
def lastComponent (p : String) : String := ⟨compLast [] p.data⟩

/-- `dict.get(k)`: first binding of the key in an insertion-ordered dict. -/
def assocFind {β : Type} (m : List (String × β)) (k : String) : Option β :=
  (m.find? (fun e => e.1 == k)).map (·.2)

/-- `dict[k] = v`: overwrite in place when the key exists, else append. -/
def assocSet {β : Type} (m : List (String × β)) (k : String) (v : β) : List (String × β) :=
  if (m.find? (fun e => e.1 == k)).isSome then
    m.map (fun e => if e.1 == k then (k, v) else e)
  else m ++ [(k, v)]

/-- Keys of an insertion-ordered dict. -/
def assocKeys {β : Type} (m : List (String × β)) : List String := m.map (·.1)

/-- `sorted(xs, reverse=True)` on a duplicate-free collection of line numbers. -/
def sortDesc (l : List ℕ) : List ℕ := l.insertionSort (· ≥ ·)

/-- One loaded coverage database snapshot, as far as the plugin observes it:
the map `measured file ↦ covered lines` exposed by `CoverageData`, plus a
corruption flag modelling a database whose `lines()` query raises `DataError`. -/
structure CovData where
  corrupt : Bool
  entries : List (String × List ℕ)
deriving DecidableEq, Repr

/-- `self.data.lines(file)`: covered lines for the file, `None` when the file
is not measured.  The `corrupt` case is handled at the call site, where the
source wraps the call in `try ... except DataError`. -/
def CovData.lines (d : CovData) (f : String) : Option (List ℕ) := assocFind d.entries f

/-- `self.data.measured_files()`. -/
def CovData.measured_files (d : CovData) : List String := d.entries.map (·.1)

/-- `class CoverageFile` (lines 113-150 of the source): one coverage database
file path together with its loaded snapshot. -/
structure CoverageFile where
  coverage_file : String
  data : CovData
deriving DecidableEq, Repr

/-- `CoverageFile.contains_file`: `str(file) in self.data.measured_files()`. -/
def CoverageFile.contains_file (cf : CoverageFile) (f : String) : Bool :=
  cf.data.measured_files.contains f

/-- `CoverageFile.missing_lines(file, text)` (lines 127-150).  The external
statement extractor (`PythonParser(text=text).parse_source()`) is a
collaborator, so its output — the set of executable-statement line numbers
for the current text — enters as the argument `statements`.  A `DataError`
from `self.data.lines(file)` is caught and yields `None`; a file absent from
the measured set yields `None`; otherwise the result is
`sorted(list(statements - set(lines)), reverse=True)`. -/
def CoverageFile.missing_lines (cf : CoverageFile) (f : String) (statements : List ℕ) :
    Option (List ℕ) :=
  if cf.data.corrupt then none
  else
    match cf.data.lines f with
    | none => none
    | some lines => some (sortDesc (statements.filter (fun s => !(lines.contains s))))

/-- `CoverageFile.update` (lines 121-122): `self.data.read()` re-reads the
database file.  The read either yields a fresh snapshot or raises; the body
contains no `try`/`except`, so a raising read propagates to the caller,
which the embedding renders as `Except.error`. -/
def CoverageFile.update (cf : CoverageFile) (disk : String → Except Unit CovData) :
    Except Unit CoverageFile :=
  (disk cf.coverage_file).map (fun d => { cf with data := d })

/-- The module-level `CACHE` dict (lines 17-23): watched folders (keys of
`open_folders`; the stored watch handles carry no further observable state),
the registry of known coverage files keyed by `str(path)`, the per-key sets
of registered views (a `defaultdict(WeakSet)`, here keyed string ↦ view ids),
and the file-to-coverage-file binding.  In the source the binding stores the
`CoverageFile` object itself; objects are created one per database path at
discovery and mutated only in place by `update()`, so the binding is
modelled by the database path, resolved through `coverage_files`. -/
structure Cache where
  open_folders : List String
  coverage_files : List (String × CoverageFile)
  registered_view_event_handlers : List (String × List ℕ)
  coverage_for_file : List (String × String)
deriving DecidableEq, Repr

/-- `CACHE` right after module import / `plugin_unloaded`'s four `clear()`s. -/
def Cache.empty : Cache := ⟨[], [], [], []⟩

/-- The dataset a file is bound to: `CACHE["coverage_for_file"].get(file_name)`,
with the stored object reference resolved through the registry. -/
def Cache.boundDataset (c : Cache) (file : String) : Option CoverageFile :=
  (assocFind c.coverage_for_file file).bind (fun p => assocFind c.coverage_files p)

/-- `defaultdict(WeakSet)[k].add(vid)`: ensure the key, add the id as to a set. -/
def addHandler (m : List (String × List ℕ)) (k : String) (vid : ℕ) :
    List (String × List ℕ) :=
  match assocFind m k with
  | some s => assocSet m k (if s.contains vid then s else s ++ [vid])
  | none => m ++ [(k, [vid])]

/-- `_FileWatcher._update(event)` (lines 72-82): ignore paths not ending in
`.coverage` and paths with no registered `CoverageFile`; otherwise `update()`
the registered file (a raising read propagates — there is no handler) and
look up `CACHE["registered_view_event_handlers"].get(event.src_path)`, i.e.
the handler set stored under the event's path.  The returned list is the set
of view ids the source would then iterate (calling
`handler()._update_regions()` on each stored element). -/
def watcherUpdate (c : Cache) (disk : String → Except Unit CovData) (src_path : String) :
    Except Unit (Cache × List ℕ) :=
  if strEndsWith src_path ".coverage" then
    match assocFind c.coverage_files src_path with
    | none => .ok (c, [])
    | some cf =>
      (cf.update disk).map (fun cf' =>
        ({ c with coverage_files := assocSet c.coverage_files src_path cf' },
         (assocFind c.registered_view_event_handlers src_path).getD []))
  else .ok (c, [])

/-- One entry of the file system as discovery observes it: a path, whether it
is an existing regular file, and — for a coverage database — the snapshot a
`CoverageFile(path)` constructor would load from it. -/
structure FSEntry where
  path : String
  is_file : Bool
  content : CovData
deriving DecidableEq, Repr

/-- `Path(folder).glob("**/.coverage")`: every path below the folder whose
final component is exactly `.coverage` (files and directories alike; the
caller filters with `is_file()`). -/
def globCoverage (fs : List FSEntry) (folder : String) : List FSEntry :=
  fs.filter (fun e =>
    listHasPre e.path.data (folder ++ "/").data && lastComponent e.path == ".coverage")

/-- The per-folder body of `update_available_coverage_files` once the folder
passed the already-watched check (lines 220-232): schedule a recursive watch
(record the folder as a key of `open_folders`) and register a `CoverageFile`
for every globbed path that is a regular file.  The source's second guard,
`coverage_file not in CACHE["coverage_files"]`, compares a `pathlib.Path`
against `str` keys and therefore never fires; registration overwrites. -/
def scanFolder (fs : List FSEntry) (c : Cache) (folder : String) : Cache :=
  let c1 : Cache :=
    { c with open_folders :=
        if c.open_folders.contains folder then c.open_folders
        else c.open_folders ++ [folder] }
  (globCoverage fs folder).foldl
    (fun acc e =>
      if e.is_file then
        { acc with coverage_files :=
            assocSet acc.coverage_files e.path ⟨e.path, e.content⟩ }
      else acc)
    c1

/-- The folder loop of `update_available_coverage_files` (lines 209-232).
When any already-watched folder occurs as a substring of the candidate
(`any(fold in folder for fold in CACHE["open_folders"])`), the method
`return`s — aborting the whole loop, not just this folder. -/
def updateFolders (fs : List FSEntry) (c : Cache) : List String → Cache
  | [] => c
  | folder :: rest =>
    if c.open_folders.any (fun fold => strIn fold folder) then c
    else updateFolders fs (scanFolder fs c folder) rest

/-- One open editor view: its id, `view.file_name()`, its current text, and
the line numbers currently drawn under the `"python-coverage"` region key. -/
structure ViewState where
  id : ℕ
  file_name : Option String
  text : String
  regions : List ℕ
deriving DecidableEq, Repr

/-- `view.erase_regions(key="python-coverage")`. -/
def ViewState.eraseRegions (v : ViewState) : ViewState := { v with regions := [] }

/-- The whole mutable module state: the persisted `show_missing_lines`
setting, `CACHE`, the open views, and `FILE_OBSERVER` (`some ()` while an
observer object is running, `none` after it was set to `None`). -/
structure World where
  show_missing_lines : Bool
  cache : Cache
  views : List ViewState
  observer : Option Unit
deriving DecidableEq, Repr

/-- `ToggleMissingLinesCommand.run` (lines 153-162): flip and persist the
setting, print a message.  Nothing else is touched. -/
def toggleMissingLines (w : World) : World :=
  { w with show_missing_lines := !w.show_missing_lines }

/-- The binding-resolution step of `_update_regions` in isolation (lines
276-286): what the registry answers when asked which dataset measures the
file.  A cached positive binding is returned as-is; only on a miss is the
registry scanned and the first match bound. -/
def datasetFor (c : Cache) (file : String) : Option CoverageFile × Cache :=
  match c.boundDataset file with
  | some cf => (some cf, c)
  | none =>
    match c.coverage_files.find? (fun e => e.2.contains_file file) with
    | some e => (some e.2, { c with coverage_for_file := assocSet c.coverage_for_file file e.1 })
    | none => (none, c)

/-- `PythonCoverageEventListener._update_regions` (lines 270-311) for one
view, as a function of the external statement extractor: resolve the binding
(on a miss, scan the registry in insertion order and bind the first
`CoverageFile` containing the file, else erase and stop), register the view
under its file name, compute `missing_lines` on the current text, and draw
one region per missing line (`if not missing`, i.e. on `None` and on `[]`
alike, erase instead). -/
def updateRegions (extract : String → List ℕ) (c : Cache) (v : ViewState) :
    Cache × ViewState :=
  match v.file_name with
  | none => (c, v)
  | some file =>
    match datasetFor c file with
    | (none, c1) => (c1, v.eraseRegions)
    | (some cf, c1) =>
      let c2 : Cache :=
        { c1 with registered_view_event_handlers :=
            addHandler c1.registered_view_event_handlers file v.id }
      match cf.missing_lines file (extract v.text) with
      | none => (c2, v.eraseRegions)
      | some [] => (c2, v.eraseRegions)
      | some missing => (c2, { v with regions := missing })

/-- `PythonCoverageEventListener.on_activated_async` (lines 252-268) for the
view with the given id: with the setting off, erase that view's regions and
stop; otherwise run `_update_regions`. -/
def onActivated (extract : String → List ℕ) (w : World) (vid : ℕ) : World :=
  if w.show_missing_lines then
    match w.views.find? (fun v => v.id == vid) with
    | none => w
    | some v =>
      let r := updateRegions extract w.cache v
      { w with cache := r.1,
               views := w.views.map (fun u => if u.id = vid then r.2 else u) }
  else
    { w with views := w.views.map (fun v => if v.id = vid then v.eraseRegions else v) }

/-- `PythonCoverageDataFileListener.update_available_coverage_files`
(lines 205-232) at world level: a no-op when the setting is off, else the
folder loop over `window.folders()`. -/
def updateAvailableCoverageFiles (fs : List FSEntry) (w : World) (folders : List String) :
    World :=
  if w.show_missing_lines then { w with cache := updateFolders fs w.cache folders }
  else w

/-- Watch-event delivery at world level: `_FileWatcher._update` runs on the
observer thread and consults only `CACHE` — the setting is never read. -/
def handleEvent (w : World) (disk : String → Except Unit CovData) (src_path : String) :
    Except Unit (World × List ℕ) :=
  (watcherUpdate w.cache disk src_path).map (fun r => ({ w with cache := r.1 }, r.2))

/-- `plugin_unloaded` (lines 94-110): clear the four `CACHE` containers, then
`FILE_OBSERVER.stop()` / `.join()` / `= None`.  When `FILE_OBSERVER` is
already `None`, the attribute access on `None` raises, after the clears. -/
def pluginUnloaded (w : World) : Except Unit World :=
  let w1 : World := { w with cache := Cache.empty }
  match w1.observer with
  | none => .error ()
  | some _ => .ok { w1 with observer := none }

/-- The Annotation Engine data path of `_update_regions` (lines 276-300):
binding resolution followed by `missing_lines` on the current text.  The
`none` result stands for the erase-and-return branches (no dataset measures
the file, `DataError`, or the file absent from the bound dataset's records) —
the spec's `NoCoverageData`. -/
def annotate (extract : String → List ℕ) (c : Cache) (f text : String) :
    Option (List ℕ) × Cache :=
  match datasetFor c f with
  | (none, c') => (none, c')
  | (some cf, c') => (cf.missing_lines f (extract text), c')

/-- Python list indexing `l[i]`: non-negative indices from the front,
negative indices from the back, `IndexError` (here `none`) out of range. -/
def pyIndex {α : Type} (l : List α) (i : Int) : Option α :=
  if 0 ≤ i then l.get? i.toNat
  else if (-i).toNat ≤ l.length then l.get? (l.length - (-i).toNat) else none

/-- Line 303 of the source,
`[all_lines_regions[line - 1] for line in missing]`: the per-line region
lookup performed when rendering; `none` when any lookup raises. -/
def missingRegions {α : Type} (regions : List α) (missing : List ℕ) : Option (List α) :=
  missing.mapM (fun (line : ℕ) => pyIndex regions ((line : Int) - 1))

/-- Fixture: loaded snapshot measuring `/p/a.py` with covered lines `{1, 2}`. -/
def exDataOld : CovData := ⟨false, [("/p/a.py", [1, 2])]⟩

/-- Fixture: the registered `CoverageFile` for database `/p/.coverage`. -/
def exCF : CoverageFile := ⟨"/p/.coverage", exDataOld⟩

/-- Fixture: cache with one watched folder, one registered dataset, view 7
subscribed under the source-file key `/p/a.py`, and `/p/a.py` bound to the
dataset. -/
def exCache : Cache :=
  ⟨["/p"], [("/p/.coverage", exCF)], [("/p/a.py", [7])], [("/p/a.py", "/p/.coverage")]⟩

/-- Fixture: the database rewritten by a test run, now also covering line 3. -/
def exDataNew : CovData := ⟨false, [("/p/a.py", [1, 2, 3])]⟩

/-- Fixture: disk contents after the rewrite. -/
def exDisk : String → Except Unit CovData := fun p =>
  if p == "/p/.coverage" then .ok exDataNew else .error ()

/-- Fixture: the cache after the watcher reloads `/p/.coverage`. -/
def exCacheReloaded : Cache :=
  ⟨["/p"], [("/p/.coverage", ⟨"/p/.coverage", exDataNew⟩)], [("/p/a.py", [7])],
   [("/p/a.py", "/p/.coverage")]⟩

/-- Fixture: a view of `/p/a.py` currently displaying a region on line 3. -/
def exView : ViewState := ⟨7, some "/p/a.py", "", [3]⟩

/-- Fixture: a running world with the setting on. -/
def exWorld : World := ⟨true, exCache, [exView], some ()⟩

/-- Fixture: a disk whose every read raises. -/
def diskFail : String → Except Unit CovData := fun _ => .error ()

/-- Fixture: a dataset registered under `/p/.coverage` that, after a reload,
no longer measures `/p/a.py`. -/
def exCFEmpty : CoverageFile := ⟨"/p/.coverage", ⟨false, []⟩⟩

/-- Fixture: cache whose binding for `/p/a.py` now points at a dataset that
no longer measures it. -/
def exCacheStale : Cache :=
  ⟨["/p"], [("/p/.coverage", exCFEmpty)], [], [("/p/a.py", "/p/.coverage")]⟩

/-- Fixture: a file system holding one coverage database under `/r`. -/
def exFS : List FSEntry := [⟨"/r/sub/.coverage", true, exDataOld⟩]

end PyCov

namespace PyCov

lemma sortDesc_perm (l : List ℕ) : (sortDesc l).Perm l := List.perm_insertionSort _ l

lemma mem_sortDesc {l : List ℕ} {n : ℕ} : n ∈ sortDesc l ↔ n ∈ l :=
  (sortDesc_perm l).mem_iff

lemma sortDesc_sorted (l : List ℕ) : List.Sorted (· ≥ ·) (sortDesc l) := by
  haveI : IsTotal ℕ (· ≥ ·) := ⟨fun a b => le_total b a⟩
  haveI : IsTrans ℕ (· ≥ ·) := ⟨fun _ _ _ h1 h2 => le_trans h2 h1⟩
  exact List.sorted_insertionSort _ l

lemma sortDesc_nodup {l : List ℕ} (h : l.Nodup) : (sortDesc l).Nodup :=
  ((sortDesc_perm l).nodup_iff).mpr h

lemma sortDesc_sorted_gt {l : List ℕ} (h : l.Nodup) : List.Sorted (· > ·) (sortDesc l) := by
  have h1 := sortDesc_sorted l
  have h2 : (sortDesc l).Pairwise (· ≠ ·) := sortDesc_nodup h
  exact (h1.and h2).imp (fun hab => lt_of_le_of_ne hab.1 (fun e => hab.2 e.symm))

lemma assocFind_mem {β : Type} {m : List (String × β)} {k : String} {v : β}
    (h : assocFind m k = some v) : ∃ e, e ∈ m ∧ e.1 = k ∧ e.2 = v := by
  unfold assocFind at h
  cases hf : m.find? (fun e => e.1 == k) with
  | none => rw [hf] at h; simp at h
  | some e =>
    rw [hf] at h
    simp only [Option.map_some'] at h
    have hm := List.mem_of_find?_eq_some hf
    have hp := List.find?_some hf
    exact ⟨e, hm, by simpa using hp, by simpa using h⟩

lemma lines_none_of_not_contains {cf : CoverageFile} {f : String}
    (h : cf.contains_file f = false) : cf.data.lines f = none := by
  unfold CoverageFile.contains_file CovData.measured_files at h
  unfold CovData.lines assocFind
  cases hf : cf.data.entries.find? (fun e => e.1 == f) with
  | none => simp
  | some e =>
    exfalso
    have hm := List.mem_of_find?_eq_some hf
    have hp := List.find?_some hf
    have hfmem : f ∈ cf.data.entries.map (·.1) := by
      simp only [List.mem_map]
      exact ⟨e, hm, by simpa using hp⟩
    rw [show ((cf.data.entries.map (·.1)).contains f = false) ↔
        ¬ f ∈ cf.data.entries.map (·.1) by simp] at h
    exact h hfmem

lemma missing_lines_none_of_not_contains {cf : CoverageFile} {f : String}
    (statements : List ℕ) (h : cf.contains_file f = false) :
    cf.missing_lines f statements = none := by
  unfold CoverageFile.missing_lines
  rw [lines_none_of_not_contains h]
  simp

lemma pyIndex_isSome_of_bounds {α : Type} (l : List α) (n : ℕ)
    (h1 : 1 ≤ n) (h2 : n ≤ l.length) : (pyIndex l ((n : Int) - 1)).isSome = true := by
  unfold pyIndex
  have h0 : (0 : Int) ≤ (n : Int) - 1 := by omega
  rw [if_pos h0]
  have hn : ((n : Int) - 1).toNat = n - 1 := by omega
  rw [hn]
  cases hg : l.get? (n - 1) with
  | none =>
    have := List.get?_eq_none.mp hg
    omega
  | some a => rfl

lemma mapM_option_isSome {α β : Type} (f : α → Option β) :
    ∀ l : List α, (∀ x ∈ l, (f x).isSome = true) → ∃ rs, l.mapM f = some rs := by
  intro l
  induction l with
  | nil => exact fun _ => ⟨[], rfl⟩
  | cons x t ih =>
    intro h
    obtain ⟨b, hb⟩ := Option.isSome_iff_exists.mp (h x (List.mem_cons_self x t))
    obtain ⟨rs, hrs⟩ := ih (fun y hy => h y (List.mem_cons_of_mem _ hy))
    refine ⟨b :: rs, ?_⟩
    rw [List.mapM_cons, hb, hrs]
    rfl

/-- C1: for every source file bound to a dataset whose database is readable
and records covered lines `ls` for the file, and every current text,
`annotate` returns exactly the extractor's statement-line set minus the
covered-line set, as a sequence sorted in descending line-number order. -/
theorem annotate_returns_sorted_difference
    (extract : String → List ℕ) (c : Cache) (f text : String)
    (cf : CoverageFile) (ls : List ℕ)
    (hbind : c.boundDataset f = some cf)
    (hcor : cf.data.corrupt = false)
    (hls : cf.data.lines f = some ls)
    (hnd : (extract text).Nodup) :
    (annotate extract c f text).1
        = some (sortDesc ((extract text).filter (fun s => !(ls.contains s))))
      ∧ (∀ n, n ∈ sortDesc ((extract text).filter (fun s => !(ls.contains s)))
            ↔ (n ∈ extract text ∧ n ∉ ls))
      ∧ List.Sorted (· > ·)
          (sortDesc ((extract text).filter (fun s => !(ls.contains s)))) := by
  refine ⟨?_, ?_, ?_⟩
  · simp [annotate, datasetFor, hbind, CoverageFile.missing_lines, hcor, hls]
  · intro n
    rw [mem_sortDesc, List.mem_filter]
    simp
  · exact sortDesc_sorted_gt (hnd.filter _)

/-- C1 witness: dataset records covered lines `{1, 2, 4}` for `/p/a.py`, the
extractor reports statement lines `{1, 2, 3, 4, 5}`; `annotate` answers
`[5, 3]`. -/
theorem annotate_returns_sorted_difference_witness :
    ((⟨[], [("/p/.coverage", ⟨"/p/.coverage", ⟨false, [("/p/a.py", [1, 2, 4])]⟩⟩)], [],
        [("/p/a.py", "/p/.coverage")]⟩ : Cache).boundDataset "/p/a.py"
        = some ⟨"/p/.coverage", ⟨false, [("/p/a.py", [1, 2, 4])]⟩⟩)
    ∧ (annotate (fun _ => [1, 2, 3, 4, 5])
        ⟨[], [("/p/.coverage", ⟨"/p/.coverage", ⟨false, [("/p/a.py", [1, 2, 4])]⟩⟩)], [],
         [("/p/a.py", "/p/.coverage")]⟩ "/p/a.py" "text").1 = some [5, 3] := by
  refine ⟨by decide, ?_⟩
  have h := annotate_returns_sorted_difference (fun _ => [1, 2, 3, 4, 5])
    ⟨[], [("/p/.coverage", ⟨"/p/.coverage", ⟨false, [("/p/a.py", [1, 2, 4])]⟩⟩)], [],
     [("/p/a.py", "/p/.coverage")]⟩ "/p/a.py" "text"
    ⟨"/p/.coverage", ⟨false, [("/p/a.py", [1, 2, 4])]⟩⟩ [1, 2, 4]
    (by decide) (by decide) (by decide) (by decide)
  exact h.1.trans (by decide)


/-- C5: for a source file measured by no registered dataset, `annotate`
yields the `NoCoverageData` result (`none`); for a bound file whose
statement set is contained in its covered set, it yields the empty
missing-set `some []`, which is distinct in kind from `none`. -/
theorem annotate_unmeasured_vs_fully_covered
    (extract : String → List ℕ) (c : Cache) (f text : String)
    (cf : CoverageFile) (ls : List ℕ) :
    ((∀ e ∈ c.coverage_files, e.2.contains_file f = false) →
        (annotate extract c f text).1 = none)
      ∧ (c.boundDataset f = some cf → cf.data.corrupt = false →
          cf.data.lines f = some ls → (∀ s ∈ extract text, s ∈ ls) →
          (annotate extract c f text).1 = some []
            ∧ (some ([] : List ℕ) ≠ (none : Option (List ℕ)))) := by
  constructor
  · intro h
    cases hb : c.boundDataset f with
    | none =>
      have hscan : c.coverage_files.find? (fun e => e.2.contains_file f) = none :=
        List.find?_eq_none.mpr (fun e he => by simp [h e he])
      simp [annotate, datasetFor, hb, hscan]
    | some cf' =>
      have hval : ∃ e, e ∈ c.coverage_files ∧ e.2 = cf' := by
        unfold Cache.boundDataset at hb
        cases hbf : assocFind c.coverage_for_file f with
        | none => rw [hbf] at hb; simp at hb
        | some p =>
          rw [hbf] at hb
          simp only [Option.some_bind] at hb
          obtain ⟨e, he, _, hev⟩ := assocFind_mem hb
          exact ⟨e, he, hev⟩
      obtain ⟨e, he, hev⟩ := hval
      have hcf' : cf'.contains_file f = false := hev ▸ h e he
      simp [annotate, datasetFor, hb, missing_lines_none_of_not_contains _ hcf']
  · intro hbind hcor hls hsub
    refine ⟨?_, by simp⟩
    have hfilter : (extract text).filter (fun s => !(ls.contains s)) = [] := by
      apply List.filter_eq_nil_iff.mpr
      intro a ha
      simp [hsub a ha]
    have hform : (annotate extract c f text).1
        = some (sortDesc ((extract text).filter (fun s => !(ls.contains s)))) := by
      simp [annotate, datasetFor, hbind, CoverageFile.missing_lines, hcor, hls]
    rw [hform, hfilter]
    rfl

/-- C5 witness: with an empty registry `annotate` answers `none` for
`/q/b.py`; with `/p/a.py` bound to a dataset covering `{1, 2}` and the
extractor reporting statements `{1, 2}`, it answers `some []`. -/
theorem annotate_unmeasured_vs_fully_covered_witness :
    ((annotate (fun _ => [1]) Cache.empty "/q/b.py" "t").1 = none)
    ∧ ((annotate (fun _ => [1, 2])
          ⟨[], [("/p/.coverage", ⟨"/p/.coverage", ⟨false, [("/p/a.py", [1, 2])]⟩⟩)], [],
           [("/p/a.py", "/p/.coverage")]⟩ "/p/a.py" "t").1 = some []
        ∧ some ([] : List ℕ) ≠ (none : Option (List ℕ))) := by
  constructor
  · exact (annotate_unmeasured_vs_fully_covered (fun _ => [1]) Cache.empty "/q/b.py" "t"
      ⟨"", ⟨false, []⟩⟩ []).1 (by decide)
  · exact (annotate_unmeasured_vs_fully_covered (fun _ => [1, 2])
      ⟨[], [("/p/.coverage", ⟨"/p/.coverage", ⟨false, [("/p/a.py", [1, 2])]⟩⟩)], [],
       [("/p/a.py", "/p/.coverage")]⟩ "/p/a.py" "t"
      ⟨"/p/.coverage", ⟨false, [("/p/a.py", [1, 2])]⟩⟩ [1, 2]).2
      (by decide) (by decide) (by decide) (by decide)

/-- C9: every line in a `some` result of `missing_lines` is a member of the
extracted statement set; hence when all extracted statement lines lie
between 1 and the number of per-line regions, the region lookup of
`_update_regions` (line 303) stays in bounds. -/
theorem missing_lines_members_safe_indexing
    {α : Type} (cf : CoverageFile) (f : String) (statements : List ℕ)
    (out : List ℕ) (regions : List α)
    (hres : cf.missing_lines f statements = some out)
    (hstmts : ∀ s ∈ statements, 1 ≤ s ∧ s ≤ regions.length) :
    (∀ n ∈ out, n ∈ statements) ∧ ∃ rs, missingRegions regions out = some rs := by
  have hmem : ∀ n ∈ out, n ∈ statements := by
    unfold CoverageFile.missing_lines at hres
    cases hcor : cf.data.corrupt with
    | true => rw [hcor] at hres; simp at hres
    | false =>
      rw [hcor] at hres
      simp only [Bool.false_eq_true, if_false] at hres
      cases hl : cf.data.lines f with
      | none => rw [hl] at hres; simp at hres
      | some ls =>
        rw [hl] at hres
        simp only [Option.some.injEq] at hres
        intro n hn
        rw [← hres] at hn
        exact (List.mem_filter.mp (mem_sortDesc.mp hn)).1
  refine ⟨hmem, ?_⟩
  unfold missingRegions
  exact mapM_option_isSome _ out (fun x hx => by
    obtain ⟨h1, h2⟩ := hstmts x (hmem x hx)
    exact pyIndex_isSome_of_bounds regions x h1 h2)

/-- C9 witness: covered `{1, 2}`, statements `{1, 2, 3}`, three per-line
regions; the missing line 3 is a statement line and its region lookup
succeeds. -/
theorem missing_lines_members_safe_indexing_witness :
    ((⟨"/p/.coverage", ⟨false, [("/p/a.py", [1, 2])]⟩⟩ : CoverageFile).missing_lines
        "/p/a.py" [1, 2, 3] = some [3])
    ∧ ((∀ n ∈ [3], n ∈ [1, 2, 3])
        ∧ ∃ rs, missingRegions ["r1", "r2", "r3"] [3] = some rs) := by
  refine ⟨by decide, ?_⟩
  exact missing_lines_members_safe_indexing
    ⟨"/p/.coverage", ⟨false, [("/p/a.py", [1, 2])]⟩⟩ "/p/a.py" [1, 2, 3] [3]
    ["r1", "r2", "r3"] (by decide) (by decide)


/-- C3 counterexample: registering `/a/b` and then `/a` leaves two
WatchedRoots, `/a/b` and `/a`, although `/a` is an ancestor of `/a/b` — the
claimed collapse to a single root covering `/a` does not happen. -/
theorem watched_roots_claim_counterexample :
    (updateFolders [] (updateFolders [] Cache.empty ["/a/b"]) ["/a"]).open_folders
        = ["/a/b", "/a"]
    ∧ ["/a/b", "/a"].length ≠ 1
    ∧ listHasPre "/a/b".data "/a/".data = true := by decide

/-- C3 amended: the nested-root dedup is one-directional.  A candidate
folder containing an already-watched folder as a substring is skipped (and
the whole folder loop `return`s), so `/a` then `/a/b` yields the single root
`/a`; but registering an ancestor of an existing root adds a second
WatchedRoot, so `/a/b` then `/a` yields both `/a/b` and `/a`. -/
theorem watched_roots_dedup_one_directional
    (fs : List FSEntry) (c : Cache) (folder : String) (rest : List String)
    (h : c.open_folders.any (fun fold => strIn fold folder) = true) :
    updateFolders fs c (folder :: rest) = c
    ∧ (updateFolders [] (updateFolders [] Cache.empty ["/a"]) ["/a/b"]).open_folders
        = ["/a"]
    ∧ (updateFolders [] (updateFolders [] Cache.empty ["/a/b"]) ["/a"]).open_folders
        = ["/a/b", "/a"] := by
  refine ⟨?_, by decide, by decide⟩
  unfold updateFolders
  simp [h]

/-- C3 witness: with `/a` watched, registering `/a/b` is a no-op. -/
theorem watched_roots_dedup_one_directional_witness :
    ((⟨["/a"], [], [], []⟩ : Cache).open_folders.any (fun fold => strIn fold "/a/b") = true)
    ∧ updateFolders [] ⟨["/a"], [], [], []⟩ ["/a/b"] = ⟨["/a"], [], [], []⟩ :=
  ⟨by decide,
   (watched_roots_dedup_one_directional [] ⟨["/a"], [], [], []⟩ "/a/b" [] (by decide)).1⟩

/-- C4 counterexample: in a world with a drawn annotation on line 3 of
`/p/a.py`, running the toggle command leaves every view's regions drawn and
a subsequent watch event for `/p/.coverage` is still fully processed (the
dataset is reloaded) although the flag is now off. -/
theorem toggle_off_claim_counterexample :
    (toggleMissingLines exWorld).show_missing_lines = false
    ∧ (toggleMissingLines exWorld).views = [⟨7, some "/p/a.py", "", [3]⟩]
    ∧ handleEvent (toggleMissingLines exWorld) exDisk "/p/.coverage"
        = .ok (⟨false, exCacheReloaded, [⟨7, some "/p/a.py", "", [3]⟩], some ()⟩, [])
    ∧ exCacheReloaded ≠ exWorld.cache :=
  ⟨rfl, rfl, rfl, by decide⟩

/-- C4 amended: the toggle command only flips the persisted flag — the
registry and every view's drawn regions are untouched; existing annotations
are erased lazily, per view, on that view's next activation while the flag
is off; and watch events are processed identically whatever the flag, since
`_FileWatcher._update` never reads the setting. -/
theorem toggle_only_flips_clear_lazy_watch_unaffected
    (w : World) (disk : String → Except Unit CovData) (p : String)
    (extract : String → List ℕ) (vid : ℕ)
    (hon : w.show_missing_lines = true) :
    (toggleMissingLines w).cache = w.cache
    ∧ (toggleMissingLines w).views = w.views
    ∧ (toggleMissingLines w).show_missing_lines = false
    ∧ (onActivated extract (toggleMissingLines w) vid).views
        = w.views.map (fun v => if v.id = vid then v.eraseRegions else v)
    ∧ handleEvent (toggleMissingLines w) disk p
        = (watcherUpdate w.cache disk p).map
            (fun r => ({ w with show_missing_lines := false, cache := r.1 }, r.2)) := by
  refine ⟨rfl, rfl, by simp [toggleMissingLines, hon], ?_, ?_⟩
  · simp [onActivated, toggleMissingLines, hon]
  · simp [handleEvent, toggleMissingLines, hon]

/-- C4 witness: the concrete running world with the flag on. -/
theorem toggle_only_flips_clear_lazy_watch_unaffected_witness :
    exWorld.show_missing_lines = true
    ∧ (toggleMissingLines exWorld).cache = exWorld.cache :=
  ⟨rfl,
   (toggle_only_flips_clear_lazy_watch_unaffected exWorld exDisk "/p/.coverage"
     (fun _ => []) 7 rfl).1⟩

/-- C7 counterexample: a second `plugin_unloaded` after a successful first
teardown raises (`FILE_OBSERVER` is `None` and `.stop()` is attempted on
it), so teardown is not idempotent. -/
theorem teardown_idempotence_counterexample :
    (pluginUnloaded exWorld).bind pluginUnloaded = .error () := rfl

/-- C7 amended: while an observer exists, teardown succeeds, clears all four
registries (every WatchedRoot record is released) and discards the observer;
but a second call on the resulting state raises instead of returning. -/
theorem teardown_clears_then_second_call_raises (w : World)
    (h : w.observer = some ()) :
    pluginUnloaded w = .ok ⟨w.show_missing_lines, Cache.empty, w.views, none⟩
    ∧ (∀ w', pluginUnloaded w = .ok w' → pluginUnloaded w' = .error ()) := by
  have h1 : pluginUnloaded w = .ok ⟨w.show_missing_lines, Cache.empty, w.views, none⟩ := by
    unfold pluginUnloaded
    rw [h]
  refine ⟨h1, ?_⟩
  intro w' hw'
  rw [h1] at hw'
  simp only [Except.ok.injEq] at hw'
  rw [← hw']
  rfl

/-- C7 witness: the concrete running world. -/
theorem teardown_clears_then_second_call_raises_witness :
    exWorld.observer = some ()
    ∧ pluginUnloaded exWorld = .ok ⟨true, Cache.empty, [exView], none⟩ :=
  ⟨rfl, (teardown_clears_then_second_call_raises exWorld rfl).1⟩

/-- C8 counterexample: when the re-read of `/p/.coverage` fails,
`CoverageFile.update` — and with it the whole watch-event handler — returns
the error instead of reporting it and keeping a queryable dataset: the
exception propagates out of every function of the plugin. -/
theorem reload_failure_claim_counterexample :
    CoverageFile.update exCF diskFail = .error ()
    ∧ watcherUpdate exCache diskFail "/p/.coverage" = .error () :=
  ⟨rfl, rfl⟩

/-- C8 amended: `update()` performs no error handling, so a read failure
propagates uncaught to its caller and out of `_FileWatcher._update`; nothing
in the plugin reports it (only `missing_lines` guards `DataError`, and only
around `data.lines`). -/
theorem reload_failure_propagates
    (c : Cache) (p : String) (cf : CoverageFile) (disk : String → Except Unit CovData)
    (hp : strEndsWith p ".coverage" = true)
    (hreg : assocFind c.coverage_files p = some cf)
    (hfail : disk cf.coverage_file = .error ()) :
    cf.update disk = .error () ∧ watcherUpdate c disk p = .error () := by
  have h1 : cf.update disk = .error () := by
    unfold CoverageFile.update
    rw [hfail]
    rfl
  refine ⟨h1, ?_⟩
  unfold watcherUpdate
  simp [hp, hreg, h1, Except.map]

/-- C8 witness: the concrete registry and an always-failing disk. -/
theorem reload_failure_propagates_witness :
    (strEndsWith "/p/.coverage" ".coverage" = true
      ∧ assocFind exCache.coverage_files "/p/.coverage" = some exCF
      ∧ diskFail exCF.coverage_file = .error ())
    ∧ watcherUpdate exCache diskFail "/p/.coverage" = .error () :=
  ⟨⟨by decide, by decide, rfl⟩,
   (reload_failure_propagates exCache "/p/.coverage" exCF diskFail
     (by decide) (by decide) rfl).2⟩

/-- C2 at the failing input: before the event, line 3 of `/p/a.py` is
missing; the modified event for `/p/.coverage` does reload the dataset (a
later annotate would answer `some []`), but the fan-out looks up subscribers
under the database path and so notifies nobody, although view 7 is
subscribed under the bound source file's key. -/
theorem watch_event_reloads_but_notifies_nobody :
    exCF.missing_lines "/p/a.py" [1, 2, 3] = some [3]
    ∧ watcherUpdate exCache exDisk "/p/.coverage" = .ok (exCacheReloaded, [])
    ∧ assocFind exCache.registered_view_event_handlers "/p/a.py" = some [7]
    ∧ (exCacheReloaded.boundDataset "/p/a.py").map
        (fun cf => cf.missing_lines "/p/a.py" [1, 2, 3]) = some (some []) :=
  ⟨by decide, rfl, by decide, by decide⟩


lemma watcherUpdate_ok_preserves
    (c : Cache) (disk : String → Except Unit CovData) (p : String)
    (c' : Cache) (ns : List ℕ)
    (h : watcherUpdate c disk p = .ok (c', ns)) :
    c'.coverage_for_file = c.coverage_for_file
    ∧ c'.registered_view_event_handlers = c.registered_view_event_handlers
    ∧ c'.open_folders = c.open_folders := by
  by_cases he : strEndsWith p ".coverage" = true
  · cases hf : assocFind c.coverage_files p with
    | none =>
      have heq : watcherUpdate c disk p = .ok (c, []) := by
        unfold watcherUpdate
        rw [if_pos he, hf]
      rw [heq] at h
      simp only [Except.ok.injEq, Prod.mk.injEq] at h
      obtain ⟨h1, _⟩ := h
      subst h1
      exact ⟨rfl, rfl, rfl⟩
    | some cf =>
      have heq : watcherUpdate c disk p
          = (cf.update disk).map (fun cf' =>
              ({ c with coverage_files := assocSet c.coverage_files p cf' },
               (assocFind c.registered_view_event_handlers p).getD [])) := by
        unfold watcherUpdate
        rw [if_pos he, hf]
      rw [heq] at h
      unfold CoverageFile.update at h
      cases hd : disk cf.coverage_file with
      | error e => rw [hd] at h; simp [Except.map] at h
      | ok d =>
        rw [hd] at h
        simp only [Except.map, Except.ok.injEq, Prod.mk.injEq] at h
        obtain ⟨h1, _⟩ := h
        rw [← h1]
        exact ⟨rfl, rfl, rfl⟩
  · have heq : watcherUpdate c disk p = .ok (c, []) := by
      unfold watcherUpdate
      rw [if_neg he]
    rw [heq] at h
    simp only [Except.ok.injEq, Prod.mk.injEq] at h
    obtain ⟨h1, _⟩ := h
    subst h1
    exact ⟨rfl, rfl, rfl⟩

lemma scanFolder_coverage_for_file (fs : List FSEntry) (c : Cache) (folder : String) :
    (scanFolder fs c folder).coverage_for_file = c.coverage_for_file := by
  unfold scanFolder
  suffices hs : ∀ (l : List FSEntry) (acc : Cache),
      (l.foldl (fun acc e =>
        if e.is_file then
          { acc with coverage_files := assocSet acc.coverage_files e.path ⟨e.path, e.content⟩ }
        else acc) acc).coverage_for_file = acc.coverage_for_file by
    exact hs _ _
  intro l
  induction l with
  | nil => intro acc; rfl
  | cons e t ih =>
    intro acc
    simp only [List.foldl_cons]
    by_cases hef : e.is_file = true
    · rw [if_pos hef]; exact ih _
    · rw [if_neg hef]; exact ih _

lemma updateFolders_coverage_for_file (fs : List FSEntry) :
    ∀ (folders : List String) (c : Cache),
      (updateFolders fs c folders).coverage_for_file = c.coverage_for_file := by
  intro folders
  induction folders with
  | nil => intro c; rfl
  | cons folder rest ih =>
    intro c
    unfold updateFolders
    by_cases h : c.open_folders.any (fun fold => strIn fold folder) = true
    · rw [if_pos h]
    · rw [if_neg h]
      rw [ih (scanFolder fs c folder)]
      exact scanFolder_coverage_for_file fs c folder

/-- C6 counterexample: with `/p/a.py` bound to the registered dataset at
`/p/.coverage` which — after a reload — no longer measures it, the next
`datasetFor` query still returns the stale dataset instead of re-checking
the binding. -/
theorem binding_recheck_claim_counterexample :
    exCacheStale.boundDataset "/p/a.py" = some exCFEmpty
    ∧ exCFEmpty.contains_file "/p/a.py" = false
    ∧ (datasetFor exCacheStale "/p/a.py").1 = some exCFEmpty := by decide

/-- C6 amended: a positive binding persists across watch events and
discovery (only plugin teardown clears it) and `datasetFor` returns the
bound dataset as-is, with no re-check of the measured-file set; when the
bound dataset no longer measures the file, the stale dataset is still
returned and `missing_lines` then answers `none` (annotations are cleared
but the binding survives). -/
theorem binding_persists_and_is_not_rechecked
    (c : Cache) (f : String) (cf : CoverageFile)
    (hb : c.boundDataset f = some cf) :
    datasetFor c f = (some cf, c)
    ∧ (∀ disk p c' ns, watcherUpdate c disk p = .ok (c', ns) →
        c'.coverage_for_file = c.coverage_for_file)
    ∧ (∀ fs folders, (updateFolders fs c folders).coverage_for_file = c.coverage_for_file)
    ∧ (∀ statements, cf.contains_file f = false →
        cf.missing_lines f statements = none) := by
  refine ⟨?_, ?_, ?_, ?_⟩
  · unfold datasetFor
    rw [hb]
  · intro disk p c' ns h
    exact (watcherUpdate_ok_preserves c disk p c' ns h).1
  · intro fs folders
    exact updateFolders_coverage_for_file fs folders c
  · intro statements hcf
    exact missing_lines_none_of_not_contains statements hcf

/-- C6 witness: the concrete stale binding. -/
theorem binding_persists_and_is_not_rechecked_witness :
    exCacheStale.boundDataset "/p/a.py" = some exCFEmpty
    ∧ datasetFor exCacheStale "/p/a.py" = (some exCFEmpty, exCacheStale) :=
  ⟨by decide,
   (binding_persists_and_is_not_rechecked exCacheStale "/p/a.py" exCFEmpty (by decide)).1⟩

lemma assocSet_keys_subset {β : Type} {m : List (String × β)} {k p : String} {v : β}
    (h : p ∈ assocKeys (assocSet m k v)) : p = k ∨ p ∈ assocKeys m := by
  unfold assocSet at h
  by_cases hf : (m.find? (fun e => e.1 == k)).isSome = true
  · rw [if_pos hf] at h
    unfold assocKeys at h ⊢
    rcases List.mem_map.mp h with ⟨x, hx, hxp⟩
    rcases List.mem_map.mp hx with ⟨e, he, rfl⟩
    by_cases hek : (e.1 == k) = true
    · rw [if_pos hek] at hxp
      exact .inl hxp.symm
    · rw [if_neg hek] at hxp
      exact .inr (List.mem_map.mpr ⟨e, he, hxp⟩)
  · rw [if_neg hf] at h
    unfold assocKeys at h ⊢
    rw [List.map_append] at h
    rcases List.mem_append.mp h with h | h
    · exact .inr h
    · exact .inl (by simpa using h)

lemma scanFolder_keys {fs : List FSEntry} {c : Cache} {folder : String} {p : String}
    (h : p ∈ assocKeys (scanFolder fs c folder).coverage_files) :
    p ∈ assocKeys c.coverage_files
    ∨ ∃ e, e ∈ fs ∧ e.path = p ∧ e.is_file = true ∧ lastComponent e.path = ".coverage" := by
  unfold scanFolder at h
  suffices hs : ∀ (l : List FSEntry) (acc : Cache),
      (∀ e ∈ l, e ∈ fs ∧ lastComponent e.path = ".coverage") →
      p ∈ assocKeys ((l.foldl (fun acc e =>
          if e.is_file then
            { acc with coverage_files := assocSet acc.coverage_files e.path ⟨e.path, e.content⟩ }
          else acc) acc).coverage_files) →
      p ∈ assocKeys acc.coverage_files
      ∨ ∃ e, e ∈ fs ∧ e.path = p ∧ e.is_file = true ∧ lastComponent e.path = ".coverage" by
    have hglob : ∀ e ∈ globCoverage fs folder, e ∈ fs ∧ lastComponent e.path = ".coverage" := by
      intro e he
      unfold globCoverage at he
      have hm := List.mem_filter.mp he
      refine ⟨hm.1, ?_⟩
      have hb := (Bool.and_eq_true _ _).mp hm.2
      exact eq_of_beq hb.2
    have key := hs (globCoverage fs folder)
      ({ c with open_folders :=
          if c.open_folders.contains folder then c.open_folders
          else c.open_folders ++ [folder] })
      hglob h
    rcases key with k | k
    · exact .inl k
    · exact .inr k
  intro l
  induction l with
  | nil =>
    intro acc _ h'
    exact .inl h'
  | cons e t ih =>
    intro acc hall h'
    simp only [List.foldl_cons] at h'
    by_cases hef : e.is_file = true
    · rw [if_pos hef] at h'
      rcases ih _ (fun x hx => hall x (List.mem_cons_of_mem _ hx)) h' with h'' | h''
      · rcases assocSet_keys_subset h'' with rfl | hmem
        · exact .inr ⟨e, (hall e (List.mem_cons_self e t)).1, rfl, hef,
            (hall e (List.mem_cons_self e t)).2⟩
        · exact .inl hmem
      · exact .inr h''
    · rw [if_neg hef] at h'
      exact ih _ (fun x hx => hall x (List.mem_cons_of_mem _ hx)) h'

lemma updateFolders_keys (fs : List FSEntry) :
    ∀ (folders : List String) (c : Cache) (p : String),
      p ∈ assocKeys (updateFolders fs c folders).coverage_files →
      p ∈ assocKeys c.coverage_files
      ∨ ∃ e, e ∈ fs ∧ e.path = p ∧ e.is_file = true ∧ lastComponent e.path = ".coverage" := by
  intro folders
  induction folders with
  | nil =>
    intro c p h
    exact .inl h
  | cons folder rest ih =>
    intro c p h
    unfold updateFolders at h
    by_cases hg : c.open_folders.any (fun fold => strIn fold folder) = true
    · rw [if_pos hg] at h
      exact .inl h
    · rw [if_neg hg] at h
      rcases ih (scanFolder fs c folder) p h with h' | h'
      · exact scanFolder_keys h'
      · exact .inr h'

/-- C10: every database path a discovery scan adds to the registry is the
path of an existing regular file whose final path component is exactly
`.coverage`; no other file name is ever registered by discovery. -/
theorem discovery_registers_only_dot_coverage_regular_files
    (fs : List FSEntry) (folders : List String) (c : Cache) (p : String)
    (hp : p ∈ assocKeys (updateFolders fs c folders).coverage_files) :
    p ∈ assocKeys c.coverage_files
    ∨ ∃ e, e ∈ fs ∧ e.path = p ∧ e.is_file = true ∧ lastComponent e.path = ".coverage" :=
  updateFolders_keys fs folders c p hp

/-- C10 witness: scanning `/r` over a file system holding
`/r/sub/.coverage` registers exactly that regular file. -/
theorem discovery_registers_only_dot_coverage_regular_files_witness :
    ("/r/sub/.coverage" ∈ assocKeys (updateFolders exFS Cache.empty ["/r"]).coverage_files)
    ∧ ("/r/sub/.coverage" ∈ assocKeys Cache.empty.coverage_files
        ∨ ∃ e, e ∈ exFS ∧ e.path = "/r/sub/.coverage" ∧ e.is_file = true
            ∧ lastComponent e.path = ".coverage") :=
  ⟨by decide,
   discovery_registers_only_dot_coverage_regular_files exFS ["/r"] Cache.empty
     "/r/sub/.coverage" (by decide)⟩

end PyCov
